import Mathlib

/-!
Shallow embedding of `scraper.py` (class `GitLabScraper`) from the
GitLab-RAG-chatbot repository, together with theorems about its crawl loop,
URL filter, content extractor and fetcher.

Python strings are modelled as Lean `String`; the Python string methods used
by the scraper (`split`, `strip`, `startswith`) are modelled by executable
char-list functions below.  The network is modelled as a function
`World : String → FetchOutcome` giving, for each URL, either an HTTP response
(status code plus parsed document) or a raised exception.  A parsed
BeautifulSoup document is modelled by the `Html` structure, which records
exactly the pieces of the DOM that `scraper.py` consults.
-/

namespace GitLabScraper

/-- Models Python `s.split(sep)` for a one-character separator:
`"a/b".split('/') = ["a","b"]`, `"a".split('/') = ["a"]`. -/
def py_split (s : String) (sep : Char) : List String :=
  (s.toList.splitOn sep).map String.mk

/-- Models Python `s.strip()`: removes leading and trailing whitespace. -/
def py_strip (s : String) : String :=
  String.mk (((s.toList.dropWhile Char.isWhitespace).reverse.dropWhile
    Char.isWhitespace).reverse)

/-- Models Python `s.startswith(p)`. -/
def py_startswith (s p : String) : Bool :=
  p.toList.isPrefixOf s.toList

/-- Splits a string at the first occurrence of `sep`, returning the part
before it and, when `sep` occurs, the part after it.  Models the
one-split idiom used by URL parsing. -/
def split_once (sep : Char) (s : String) : String × Option String :=
  match s.toList.splitOn sep with
  | [] => (s, none)
  | [x] => (String.mk x, none)
  | x :: rest => (String.mk x, some (String.mk (List.intercalate [sep] rest)))

/-- Finds the first occurrence of the marker `"://"` in a character list,
returning the characters before it and after it. -/
def split_scheme_marker : List Char → Option (List Char × List Char)
  | [] => none
  | c :: rest =>
    if c = ':' ∧ rest.take 2 = ['/', '/'] then some ([], rest.drop 2)
    else
      match split_scheme_marker rest with
      | none => none
      | some (a, b) => some (c :: a, b)

/-- Result type of `urlparse`: the components of a URL. -/
structure Url where
  scheme : String
  netloc : String
  path : String
  query : String
  fragment : String
deriving DecidableEq

/-- Models `urllib.parse.urlparse`, restricted to the shapes the scraper
meets: the fragment is everything after the first `#`, the query everything
after the first `?` before that, and for an absolute URL the scheme is what
stands before the first `://`, the netloc what follows it up to the next
`/`, and the path the rest.  A string without `://` is treated as all path
(scheme and netloc empty), which agrees with the real parser on the
relative references the scraper filters out. -/
def urlparse (url : String) : Url :=
  let fragSplit := split_once '#' url
  let querySplit := split_once '?' fragSplit.1
  let query := querySplit.2.getD ""
  let fragment := fragSplit.2.getD ""
  match split_scheme_marker querySplit.1.toList with
  | none => ⟨"", "", querySplit.1, query, fragment⟩
  | some (schemeChars, after) =>
    match split_once '/' (String.mk after) with
    | (netloc, none) => ⟨String.mk schemeChars, netloc, "", query, fragment⟩
    | (netloc, some p) =>
      ⟨String.mk schemeChars, netloc, "/" ++ p, query, fragment⟩

/-- Models `urllib.parse.urljoin` for the cases the scraper meets: an
absolute href is returned unchanged, a root-relative href (`/x`) is joined
to the base's origin, and any other href replaces the last segment of the
base's path (no `..`/`.` normalization, which `scraper.py` never relies
on). -/
def urljoin (base href : String) : String :=
  if (split_scheme_marker href.toList).isSome then href
  else
    let b := urlparse base
    if py_startswith href "/" then b.scheme ++ "://" ++ b.netloc ++ href
    else
      b.scheme ++ "://" ++ b.netloc ++
        String.intercalate "/" ((py_split b.path '/').dropLast) ++ "/" ++ href

/-- The hard-coded whitelist `self.domain_whitelist` from
`GitLabScraper.__init__` (scraper.py lines 20-23). -/
def domain_whitelist : List String :=
  ["handbook.gitlab.com/handbook", "about.gitlab.com/direction"]

/-- Embedding of `GitLabScraper.is_allowed_url` (scraper.py lines 39-51):
for some whitelist entry, the URL's netloc must equal the part of the entry
before the first `/`, and either the entry has no `/` at all or the full URL
string starts with `"https://" + entry`. -/
def is_allowed_url (url : String) : Bool :=
  let parsed := urlparse url
  domain_whitelist.any fun domain =>
    parsed.netloc == (py_split domain '/').headD "" &&
      ((py_split domain '/').length == 1 ||
        py_startswith url ("https://" ++ domain))

/-- Model of a parsed BeautifulSoup document: exactly the DOM features
`scraper.py` consults.  `title = none` models a document with no `<title>`
element; `title = some none` models a `<title>` element whose `.string`
attribute is Python `None` (e.g. an empty or multi-child title element);
`title = some (some s)` a title element with string `s`.  `headings` holds
the `(level, text)` of every `h1`..`h6` element in document order,
`paragraphs` the text of every `<p>`, `lists` the `<li>` texts of each
`<ul>`/`<ol>` element, and `anchors` the `href` of every `<a href=...>`. -/
structure Html where
  title : Option (Option String)
  headings : List (Nat × String)
  paragraphs : List String
  lists : List (List String)
  anchors : List String
deriving DecidableEq

/-- Embedding of `GitLabScraper.extract_text` (scraper.py lines 53-83).
Returns `none` when the Python code would raise: when the document has a
`<title>` element whose `.string` is `None`, `title.strip()` raises an
`AttributeError` before anything is assembled.  Otherwise it returns the
joined content list built exactly as the Python code builds `content`. -/
def extract_text (soup : Html) (url : String) : Option String :=
  match soup.title with
  | some none => none
  | titleElem =>
    let title : String :=
      match titleElem with
      | some (some s) => s
      | _ => "Untitled Page"
    let content : List String :=
      ("\n\n## " ++ py_strip title ++ "\n") ::
      ("URL: " ++ url ++ "\n") ::
      (([1, 2, 3, 4, 5, 6].flatMap fun lvl =>
          (soup.headings.filter fun h => h.1 == lvl).filterMap fun h =>
            let text := py_strip h.2
            if text == "" then none
            else some (String.mk (List.replicate (lvl + 2) '#') ++ " " ++
              text ++ "\n"))
        ++ (soup.paragraphs.filterMap fun p =>
            let text := py_strip p
            if text == "" then none else some (text ++ "\n\n"))
        ++ (soup.lists.flatMap fun ul =>
            ul.filterMap fun li =>
              let text := py_strip li
              if text == "" then none else some ("- " ++ text ++ "\n")))
    some (String.join content)

/-- Embedding of `GitLabScraper.extract_links` (scraper.py lines 85-101):
resolve each anchor's href against the base URL, keep it when its scheme is
http or https and `is_allowed_url` accepts it, and normalize it to
`scheme://netloc/path` (dropping query and fragment). -/
def extract_links (soup : Html) (base_url : String) : List String :=
  soup.anchors.filterMap fun href =>
    let full_url := urljoin base_url href
    let parsed := urlparse full_url
    if (parsed.scheme == "http" || parsed.scheme == "https") &&
        is_allowed_url full_url then
      some (parsed.scheme ++ "://" ++ parsed.netloc ++ parsed.path)
    else none

/-- Outcome of one HTTP GET, as the network delivers it: either a response
with a status code and a parsed body, or a raised network/timeout
exception carrying its message. -/
inductive FetchOutcome where
  | response (status : Nat) (body : Html)
  | exception (msg : String)
deriving DecidableEq

/-- The network, modelled as a map from URL to what `requests.get` does
for it.  The scraper is single-threaded and fetches each URL by a plain
lookup, so a fixed map is faithful for one run. -/
def World : Type := String → FetchOutcome

/-- Models `requests.Response.raise_for_status`, which raises `HTTPError`
exactly for client and server error codes, 400..599. -/
def http_error (status : Nat) : Bool :=
  decide (400 ≤ status ∧ status < 600)

/-- Message of the `HTTPError` raised by `raise_for_status` (modelled; the
scraper only ever embeds it in an error block as `str(e)`). -/
def http_error_msg (status : Nat) (url : String) : String :=
  toString status ++ " Error for url: " ++ url

/-- The fetch step of `GitLabScraper.scrape_url` (scraper.py lines
105-106): one `requests.get` followed by `raise_for_status`; a raised
exception or a 4xx/5xx status yields the error message, otherwise the
parsed body.  No retry: the world is consulted once. -/
def fetch (world : World) (url : String) : Except String Html :=
  match world url with
  | .exception msg => .error msg
  | .response status body =>
    if http_error status then .error (http_error_msg status url)
    else .ok body

/-- The error block returned by the `except` branch of `scrape_url`
(scraper.py line 126), Python
`f"\n\nError scraping \x7burl\x7d: \x7bstr(e)\x7d\n\n"`. -/
def error_block (url msg : String) : String :=
  "\n\nError scraping " ++ url ++ ": " ++ msg ++ "\n\n"

/-- Message of the `AttributeError` raised by `title.strip()` when
`soup.title.string` is Python `None` (its Python text, quotes elided). -/
def none_strip_msg : String := "NoneType object has no attribute strip"

/-- The mutable crawl state owned by a `GitLabScraper` instance: the
`visited_urls` set (modelled as a list, membership only) and the
`to_visit` deque. -/
structure CrawlState where
  visited_urls : List String
  to_visit : List String
deriving DecidableEq

/-- Embedding of `GitLabScraper.scrape_url` (scraper.py lines 103-126).
On success it extracts text and links, appends each link not in
`visited_urls` to `to_visit`, adds the URL to `visited_urls`, and returns
the text.  Any exception inside the `try` block — the fetch raising, or
`extract_text` raising on a `None` title string — is caught before the
state is touched, and the error block is returned with the state
unchanged. -/
def scrape_url (world : World) (st : CrawlState) (url : String) :
    String × CrawlState :=
  match fetch world url with
  | .error msg => (error_block url msg, st)
  | .ok soup =>
    match extract_text soup url with
    | none => (error_block url none_strip_msg, st)
    | some text_content =>
      let links := extract_links soup url
      let to_visit2 :=
        st.to_visit ++ links.filter fun link => !(st.visited_urls.contains link)
      (text_content, ⟨url :: st.visited_urls, to_visit2⟩)

/-- Decides whether `scrape_url` on `url` takes its `except` branch: the
fetch fails, or the fetched document makes `extract_text` raise. -/
def scrape_fails (world : World) (url : String) : Bool :=
  match fetch world url with
  | .error _ => true
  | .ok soup => (extract_text soup url).isNone

/-- Observable outcome of `GitLabScraper.run`: the corpus blocks appended
to the output file in order, the URLs actually handed to `scrape_url` in
order, the final `visited_urls` and `to_visit`, and the final
`page_count`. -/
structure RunResult where
  corpus : List String
  fetched : List String
  visited_urls : List String
  to_visit : List String
  page_count : Nat
deriving DecidableEq

/-- Embedding of the `while` loop of `GitLabScraper.run` (scraper.py lines
137-157): while `to_visit` is nonempty and `page_count < max_pages`, pop
the left end; if the URL is already visited, continue without counting;
otherwise scrape it, append the returned content to the corpus and
increment `page_count`. -/
def run_aux (world : World) (max_pages : Nat) (visited : List String)
    (queue : List String) (page_count : Nat) : RunResult :=
  match queue with
  | [] => ⟨[], [], visited, [], page_count⟩
  | url :: rest =>
    if h : page_count < max_pages then
      if url ∈ visited then
        run_aux world max_pages visited rest page_count
      else
        let step := scrape_url world ⟨visited, rest⟩ url
        let r := run_aux world max_pages step.2.visited_urls step.2.to_visit
          (page_count + 1)
        ⟨step.1 :: r.corpus, url :: r.fetched, r.visited_urls, r.to_visit,
          r.page_count⟩
    else ⟨[], [], visited, queue, page_count⟩
termination_by (max_pages - page_count, queue.length)

/-- The crawl state built by `GitLabScraper.__init__`: empty visited set,
`to_visit` seeded with `start_urls` in order. -/
def init_state (start_urls : List String) : CrawlState :=
  ⟨[], start_urls⟩

/-- Embedding of `GitLabScraper.run(max_pages)` on a fresh instance
constructed with `start_urls`. -/
def run (world : World) (start_urls : List String) (max_pages : Nat) :
    RunResult :=
  let st := init_state start_urls
  run_aux world max_pages st.visited_urls st.to_visit 0

/-- A network on which every fetch raises a timeout-style exception. -/
def world_fail : World := fun _ => .exception "boom"

/-- A network on which every fetch returns status 200 with an empty
document (no title element, no headings, paragraphs, lists or anchors). -/
def world_ok : World := fun _ => .response 200 ⟨none, [], [], [], []⟩

/-! Helper lemmas about strings, `scrape_url` and one step of the loop. -/

lemma string_data_eq {s t : String} (h : s.data = t.data) : s = t := by
  cases s; cases t; exact congrArg String.mk h

lemma string_join_cons (a : String) (l : List String) :
    String.join (a :: l) = a ++ String.join l := by
  apply string_data_eq; simp

lemma py_startswith_append (p rest : String) : py_startswith (p ++ rest) p = true := by
  simp [py_startswith, List.isPrefixOf_iff_prefix]

lemma scrape_url_of_fails (world : World) (st : CrawlState) (url : String)
    (h : scrape_fails world url = true) :
    ∃ msg, scrape_url world st url = (error_block url msg, st) := by
  unfold scrape_fails at h
  cases hf : fetch world url with
  | error msg =>
    refine ⟨msg, ?_⟩
    simp [scrape_url, hf]
  | ok soup =>
    rw [hf] at h
    have he : extract_text soup url = none := by simpa using h
    refine ⟨none_strip_msg, ?_⟩
    simp [scrape_url, hf, he]

lemma scrape_url_of_success (world : World) (st : CrawlState) (url : String)
    (h : scrape_fails world url = false) :
    ∃ soup text, fetch world url = .ok soup ∧ extract_text soup url = some text ∧
      scrape_url world st url = (text,
        ⟨url :: st.visited_urls,
          st.to_visit ++ (extract_links soup url).filter
            fun link => !(st.visited_urls.contains link)⟩) := by
  unfold scrape_fails at h
  cases hf : fetch world url with
  | error msg => rw [hf] at h; simp at h
  | ok soup =>
    rw [hf] at h
    have h2 : (extract_text soup url).isNone = false := by simpa using h
    cases he : extract_text soup url with
    | none => rw [he] at h2; simp at h2
    | some t =>
      refine ⟨soup, t, rfl, he, ?_⟩
      simp [scrape_url, hf, he]

lemma run_aux_nil (world : World) (N : Nat) (v : List String) (c : Nat) :
    run_aux world N v [] c = ⟨[], [], v, [], c⟩ := by
  rw [run_aux]

lemma run_aux_stop (world : World) (N : Nat) (v : List String) (u : String)
    (rest : List String) (c : Nat) (hc : ¬ c < N) :
    run_aux world N v (u :: rest) c = ⟨[], [], v, u :: rest, c⟩ := by
  rw [run_aux]; simp [hc]

lemma run_aux_skip (world : World) (N : Nat) (v : List String) (u : String)
    (rest : List String) (c : Nat) (hc : c < N) (hv : u ∈ v) :
    run_aux world N v (u :: rest) c = run_aux world N v rest c := by
  rw [run_aux]; simp [hc, hv]

lemma run_aux_step (world : World) (N : Nat) (v : List String) (u : String)
    (rest : List String) (c : Nat) (hc : c < N) (hv : u ∉ v) :
    run_aux world N v (u :: rest) c =
      ⟨(scrape_url world ⟨v, rest⟩ u).1 ::
          (run_aux world N (scrape_url world ⟨v, rest⟩ u).2.visited_urls
            (scrape_url world ⟨v, rest⟩ u).2.to_visit (c + 1)).corpus,
        u :: (run_aux world N (scrape_url world ⟨v, rest⟩ u).2.visited_urls
            (scrape_url world ⟨v, rest⟩ u).2.to_visit (c + 1)).fetched,
        (run_aux world N (scrape_url world ⟨v, rest⟩ u).2.visited_urls
            (scrape_url world ⟨v, rest⟩ u).2.to_visit (c + 1)).visited_urls,
        (run_aux world N (scrape_url world ⟨v, rest⟩ u).2.visited_urls
            (scrape_url world ⟨v, rest⟩ u).2.to_visit (c + 1)).to_visit,
        (run_aux world N (scrape_url world ⟨v, rest⟩ u).2.visited_urls
            (scrape_url world ⟨v, rest⟩ u).2.to_visit (c + 1)).page_count⟩ := by
  rw [run_aux]; simp [hc, hv]

lemma run_aux_done (world : World) (N : Nat) (v q : List String) (c : Nat)
    (hc : ¬ c < N) : run_aux world N v q c = ⟨[], [], v, q, c⟩ := by
  cases q with
  | nil => rw [run_aux_nil]
  | cons u rest => rw [run_aux_stop _ _ _ _ _ _ hc]

lemma run_aux_count (world : World) (N : Nat) :
    ∀ (v q : List String) (c : Nat), c ≤ N →
      (run_aux world N v q c).page_count ≤ N ∧
      (run_aux world N v q c).page_count = c + (run_aux world N v q c).corpus.length ∧
      ((run_aux world N v q c).page_count < N →
        (run_aux world N v q c).to_visit = []) := by
  intro v q c
  induction v, q, c using run_aux.induct world N with
  | case1 v c =>
    intro hc
    rw [run_aux_nil]
    exact ⟨hc, by simp, fun _ => rfl⟩
  | case2 v c url rest hlt hv ih =>
    intro hc
    rw [run_aux_skip _ _ _ _ _ _ hlt hv]
    exact ih hc
  | case3 v c url rest hlt hv step ih =>
    intro hc
    rw [run_aux_step _ _ _ _ _ _ hlt hv]
    unfold step at ih
    obtain ⟨h1, h2, h3⟩ := ih (by omega)
    refine ⟨h1, ?_, h3⟩
    simp only [List.length_cons]
    omega
  | case4 v c url rest hlt =>
    intro hc
    rw [run_aux_stop _ _ _ _ _ _ hlt]
    exact ⟨hc, by simp, fun h => absurd h hlt⟩

lemma run_aux_fetch_once (world : World) (N : Nat) (u : String)
    (hsucc : scrape_fails world u = false) :
    ∀ (v q : List String) (c : Nat),
      (u ∈ v → List.count u (run_aux world N v q c).fetched = 0) ∧
      List.count u (run_aux world N v q c).fetched ≤ 1 := by
  intro v q c
  induction v, q, c using run_aux.induct world N with
  | case1 v c => rw [run_aux_nil]; simp
  | case2 v c url rest hlt hvv ih =>
    rw [run_aux_skip _ _ _ _ _ _ hlt hvv]
    exact ih
  | case3 v c url rest hlt hvv step ih =>
    rw [run_aux_step _ _ _ _ _ _ hlt hvv]
    unfold step at ih
    by_cases he : url = u
    · subst he
      obtain ⟨soup, text, hf, hex, hsu⟩ :=
        scrape_url_of_success world ⟨v, rest⟩ url hsucc
      dsimp only at hsu
      rw [hsu] at ih
      simp only [hsu]
      dsimp only at ih ⊢
      refine ⟨fun hu => absurd hu hvv, ?_⟩
      have h0 := ih.1 (List.mem_cons_self url v)
      rw [List.count_cons_self, h0]
    · constructor
      · intro hu
        have hcount : List.count u (run_aux world N
            (scrape_url world ⟨v, rest⟩ url).2.visited_urls
            (scrape_url world ⟨v, rest⟩ url).2.to_visit (c + 1)).fetched
            = 0 := by
          cases hsf : scrape_fails world url with
          | true =>
            obtain ⟨msg, hsu⟩ := scrape_url_of_fails world ⟨v, rest⟩ url hsf
            rw [hsu] at ih ⊢
            exact ih.1 hu
          | false =>
            obtain ⟨soup, text, hf, hex, hsu⟩ :=
              scrape_url_of_success world ⟨v, rest⟩ url hsf
            dsimp only at hsu
            rw [hsu] at ih ⊢
            dsimp only at ih ⊢
            exact ih.1 (List.mem_cons_of_mem _ hu)
        dsimp only
        rw [List.count_cons]
        simp [beq_eq_false_iff_ne.mpr he, hcount]
      · have h2 := ih.2
        dsimp only
        rw [List.count_cons]
        simp only [beq_eq_false_iff_ne.mpr he, if_false, Nat.add_zero]
        exact h2
  | case4 v c url rest hlt =>
    rw [run_aux_stop _ _ _ _ _ _ hlt]
    simp

lemma extract_links_approved (soup : Html) (base l : String)
    (h : l ∈ extract_links soup base) :
    ∃ full, is_allowed_url full = true ∧
      l = (urlparse full).scheme ++ "://" ++ (urlparse full).netloc ++
        (urlparse full).path := by
  unfold extract_links at h
  rw [List.mem_filterMap] at h
  obtain ⟨href, _, hl⟩ := h
  dsimp only at hl
  split at hl
  · next hcond =>
    rw [Bool.and_eq_true] at hcond
    exact ⟨urljoin base href, hcond.2, (Option.some_inj.mp hl).symm⟩
  · exact absurd hl (by simp)

lemma run_aux_queue_inv (world : World) (N : Nat) (P : String → Prop)
    (hP : ∀ (soup : Html) (base l : String), l ∈ extract_links soup base → P l) :
    ∀ (v q : List String) (c : Nat), (∀ l ∈ q, P l) →
      ∀ l ∈ (run_aux world N v q c).to_visit, P l := by
  intro v q c
  induction v, q, c using run_aux.induct world N with
  | case1 v c =>
    intro _ l hl
    rw [run_aux_nil] at hl
    simp at hl
  | case2 v c url rest hlt hv ih =>
    intro hq
    rw [run_aux_skip _ _ _ _ _ _ hlt hv]
    exact ih fun l hl => hq l (List.mem_cons_of_mem _ hl)
  | case3 v c url rest hlt hv step ih =>
    intro hq
    rw [run_aux_step _ _ _ _ _ _ hlt hv]
    unfold step at ih
    dsimp only
    cases hsf : scrape_fails world url with
    | true =>
      obtain ⟨msg, hsu⟩ := scrape_url_of_fails world ⟨v, rest⟩ url hsf
      rw [hsu] at ih ⊢
      dsimp only at ih ⊢
      exact ih fun l hl => hq l (List.mem_cons_of_mem _ hl)
    | false =>
      obtain ⟨soup, text, hf, hex, hsu⟩ :=
        scrape_url_of_success world ⟨v, rest⟩ url hsf
      dsimp only at hsu
      rw [hsu] at ih ⊢
      dsimp only at ih ⊢
      apply ih
      intro l hl
      rw [List.mem_append] at hl
      cases hl with
      | inl hmem => exact hq l (List.mem_cons_of_mem _ hmem)
      | inr hmem => exact hP soup url l (List.mem_filter.mp hmem).1
  | case4 v c url rest hlt =>
    intro hq
    rw [run_aux_stop _ _ _ _ _ _ hlt]
    exact hq

/-! The claims. -/

/-- C1 (counterexample): the claim says every URL is processed (fetched
and given a corpus entry) at most once per run, including URLs whose fetch
failed.  False on the code: `scrape_url` adds a URL to `visited_urls` only
on success, so with the seed list `["u", "u"]` and a network on which the
fetch of `"u"` raises, the URL `"u"` is popped, fetched and written to the
corpus twice. -/
theorem c1_counterexample :
    (run world_fail ["u", "u"] 5).fetched = ["u", "u"] ∧
    ¬ (List.count "u" (run world_fail ["u", "u"] 5).fetched ≤ 1) := by
  have h : (run world_fail ["u", "u"] 5).fetched = ["u", "u"] := by
    simp [run, run_aux, init_state, scrape_url, fetch, world_fail]
  exact ⟨h, by rw [h]; decide⟩

/-- C1 (amended): a popped URL that is already in the visited set is
skipped without fetching, and a URL whose fetch and parse succeed is
fetched at most once across the whole run; only a URL whose scrape fails
(and which is therefore not added to `visited_urls`) can be fetched
again. -/
theorem c1_processed_once :
    (∀ (world : World) (N : Nat) (v : List String) (u : String)
      (rest : List String) (c : Nat), c < N → u ∈ v →
      run_aux world N v (u :: rest) c = run_aux world N v rest c) ∧
    (∀ (world : World) (seeds : List String) (N : Nat) (u : String),
      scrape_fails world u = false →
      List.count u (run world seeds N).fetched ≤ 1) := by
  constructor
  · exact fun world N v u rest c hc hv => run_aux_skip world N v u rest c hc hv
  · intro world seeds N u hsucc
    have h := (run_aux_fetch_once world N u hsucc [] seeds 0).2
    simpa [run, init_state] using h

theorem c1_processed_once_witness :
    scrape_fails world_ok "u" = false ∧
    List.count "u" (run world_ok ["u", "u"] 5).fetched ≤ 1 :=
  ⟨by decide, c1_processed_once.2 world_ok ["u", "u"] 5 "u" (by decide)⟩

/-- C2 (counterexample): the claim says extraction never fails on a
malformed or missing title and substitutes "Untitled Page".  False on the
code: for a document with a `<title>` element whose `.string` is `None`
(e.g. `<title></title>`), `title.strip()` raises, so `extract_text` fails
(returns `none` in the model) instead of producing the fallback. -/
theorem c2_counterexample :
    extract_text ⟨some none, [], [], [], []⟩ "https://x" = none := by decide

/-- C2 (amended): extraction succeeds on every document except one whose
`<title>` element has a `None` string; when the title element is entirely
absent the literal "Untitled Page" is used as the title, and a document
with no headings, paragraphs or lists yields just the title and URL lines
rather than an error entry. -/
theorem c2_title_fallback :
    (∀ (soup : Html) (url : String), soup.title ≠ some none →
      (extract_text soup url).isSome = true) ∧
    (∀ (soup : Html) (url : String), soup.title = none →
      py_startswith ((extract_text soup url).getD "") "\n\n## Untitled Page\n" = true) ∧
    (∀ url : String, extract_text ⟨none, [], [], [], []⟩ url =
      some ("\n\n## Untitled Page\n" ++ ("URL: " ++ url ++ "\n"))) := by
  have hstrip : py_strip "Untitled Page" = "Untitled Page" := by decide
  refine ⟨?_, ?_, ?_⟩
  · intro soup url h
    match ht : soup.title with
    | none => simp [extract_text, ht]
    | some none => exact absurd ht h
    | some (some s) => simp [extract_text, ht]
  · intro soup url ht
    simp only [extract_text, ht, hstrip, Option.getD_some]
    rw [string_join_cons]
    exact py_startswith_append _ _
  · intro url
    simp only [extract_text, hstrip]
    refine congrArg some ?_
    apply string_data_eq
    simp

theorem c2_title_fallback_witness :
    (Html.mk (some (some "T")) [] [] [] []).title ≠ some none ∧
    (extract_text (Html.mk (some (some "T")) [] [] [] []) "https://x").isSome = true :=
  ⟨by decide, c2_title_fallback.1 (Html.mk (some (some "T")) [] [] [] []) "https://x" (by decide)⟩

/-- C3: when a popped unvisited URL's fetch or parse fails, the run still
appends exactly one corpus entry for that pop — the error block
"\n\nError scraping URL: message\n\n" — the page counter still increments
by one, and the loop continues on the rest of the queue instead of
aborting: the whole outcome equals the error block consed onto the outcome
of the run continued at `page_count + 1`. -/
theorem c3_error_block (world : World) (N : Nat) (visited rest : List String)
    (url : String) (c : Nat) (hv : url ∉ visited) (hc : c < N)
    (hfail : scrape_fails world url = true) :
    ∃ msg, run_aux world N visited (url :: rest) c =
      ⟨error_block url msg :: (run_aux world N visited rest (c + 1)).corpus,
        url :: (run_aux world N visited rest (c + 1)).fetched,
        (run_aux world N visited rest (c + 1)).visited_urls,
        (run_aux world N visited rest (c + 1)).to_visit,
        (run_aux world N visited rest (c + 1)).page_count⟩ := by
  obtain ⟨msg, hsu⟩ := scrape_url_of_fails world ⟨visited, rest⟩ url hfail
  refine ⟨msg, ?_⟩
  rw [run_aux_step _ _ _ _ _ _ hc hv, hsu]

theorem c3_error_block_witness :
    "u" ∉ ([] : List String) ∧ 0 < 1 ∧ scrape_fails world_fail "u" = true ∧
    ∃ msg, run_aux world_fail 1 [] ["u"] 0 =
      ⟨error_block "u" msg :: (run_aux world_fail 1 [] [] 1).corpus,
        "u" :: (run_aux world_fail 1 [] [] 1).fetched,
        (run_aux world_fail 1 [] [] 1).visited_urls,
        (run_aux world_fail 1 [] [] 1).to_visit,
        (run_aux world_fail 1 [] [] 1).page_count⟩ :=
  ⟨by simp, by decide, by decide,
    c3_error_block world_fail 1 [] [] "u" 0 (by simp) (by decide) (by decide)⟩

/-- C4: the extracted text is assembled in this exact order — a level-2
heading with the title (the title element's trimmed string when present,
the fallback "Untitled Page" when the title element is absent), a line
with the source URL, all headings grouped by tag type in ascending h1..h6
order at Markdown depth level+2 with empty texts skipped, all paragraphs
in document order, then all list items as bullets; and on the HTML of the
spec scenario (title "Values", an h2 "Our Values", paragraph "Text.",
list item "One", source URL "https://x/y") the output contains
"## Values", "URL: https://x/y", "#### Our Values", "Text." and "- One"
in exactly that order. -/
theorem c4_order :
    (∀ (soup : Html) (url t : String), soup.title = some (some t) →
      extract_text soup url =
        some (("\n\n## " ++ py_strip t ++ "\n") ++ (("URL: " ++ url ++ "\n") ++
          (String.join ([1, 2, 3, 4, 5, 6].flatMap fun lvl =>
            (soup.headings.filter fun h => h.1 == lvl).filterMap fun h =>
              if py_strip h.2 == "" then none
              else some (String.mk (List.replicate (lvl + 2) '#') ++ " " ++
                py_strip h.2 ++ "\n")) ++
          (String.join (soup.paragraphs.filterMap fun p =>
            if py_strip p == "" then none else some (py_strip p ++ "\n\n")) ++
          String.join (soup.lists.flatMap fun ul =>
            ul.filterMap fun li =>
              if py_strip li == "" then none
              else some ("- " ++ py_strip li ++ "\n"))))))) ∧
    (∀ (soup : Html) (url : String), soup.title = none →
      extract_text soup url =
        some ("\n\n## Untitled Page\n" ++ (("URL: " ++ url ++ "\n") ++
          (String.join ([1, 2, 3, 4, 5, 6].flatMap fun lvl =>
            (soup.headings.filter fun h => h.1 == lvl).filterMap fun h =>
              if py_strip h.2 == "" then none
              else some (String.mk (List.replicate (lvl + 2) '#') ++ " " ++
                py_strip h.2 ++ "\n")) ++
          (String.join (soup.paragraphs.filterMap fun p =>
            if py_strip p == "" then none else some (py_strip p ++ "\n\n")) ++
          String.join (soup.lists.flatMap fun ul =>
            ul.filterMap fun li =>
              if py_strip li == "" then none
              else some ("- " ++ py_strip li ++ "\n"))))))) ∧
    extract_text ⟨some (some "Values"), [(2, "Our Values")], ["Text."], [["One"]], []⟩
        "https://x/y" =
      some ("\n\n" ++ "## Values" ++ "\n" ++ "URL: https://x/y" ++ "\n" ++
        "#### Our Values" ++ "\n" ++ "Text." ++ "\n\n" ++ "- One" ++ "\n") := by
  refine ⟨?_, ?_, ?_⟩
  · intro soup url t ht
    simp only [extract_text, ht]
    refine congrArg some ?_
    apply string_data_eq
    simp
  · intro soup url ht
    have htl : "\n\n## " ++ py_strip "Untitled Page" ++ "\n" =
        "\n\n## Untitled Page\n" := by decide
    simp only [extract_text, ht, htl]
    refine congrArg some ?_
    apply string_data_eq
    simp
  · decide

theorem c4_order_witness :
    (Html.mk (some (some "T")) [] [] [] []).title = some (some "T") ∧
    extract_text (Html.mk (some (some "T")) [] [] [] []) "https://u" =
      some "\n\n## T\nURL: https://u\n" := by
  refine ⟨rfl, ?_⟩
  have h := c4_order.1 (Html.mk (some (some "T")) [] [] [] []) "https://u" "T" rfl
  rw [h]
  decide

/-- C5: for a URL whose parsed host is the host of a whitelist rule (both
rules of the hard-coded whitelist carry a path), `is_allowed_url` returns
true exactly when the full URL string starts with the rule's
`https://host/path` prefix; and for a URL whose host matches no rule's
host, `is_allowed_url` returns false. -/
theorem c5_filter (url : String) :
    ((urlparse url).netloc = "handbook.gitlab.com" →
      (is_allowed_url url = true ↔
        py_startswith url "https://handbook.gitlab.com/handbook" = true)) ∧
    ((urlparse url).netloc = "about.gitlab.com" →
      (is_allowed_url url = true ↔
        py_startswith url "https://about.gitlab.com/direction" = true)) ∧
    ((urlparse url).netloc ≠ "handbook.gitlab.com" ∧
        (urlparse url).netloc ≠ "about.gitlab.com" →
      is_allowed_url url = false) := by
  have h1 : py_split "handbook.gitlab.com/handbook" '/' =
      ["handbook.gitlab.com", "handbook"] := by decide
  have h2 : py_split "about.gitlab.com/direction" '/' =
      ["about.gitlab.com", "direction"] := by decide
  simp only [is_allowed_url, domain_whitelist, List.any_cons, List.any_nil, h1, h2,
    List.headD_cons, List.length_cons, List.length_nil, Bool.or_false]
  refine ⟨?_, ?_, ?_⟩
  · intro hn
    rw [hn]
    simp
  · intro hn
    rw [hn]
    simp
  · intro ⟨hn1, hn2⟩
    simp [hn1, hn2]

theorem c5_filter_witness :
    (urlparse "https://handbook.gitlab.com/handbook/values").netloc =
      "handbook.gitlab.com" ∧
    (is_allowed_url "https://handbook.gitlab.com/handbook/values" = true ↔
      py_startswith "https://handbook.gitlab.com/handbook/values"
        "https://handbook.gitlab.com/handbook" = true) :=
  ⟨by decide, (c5_filter "https://handbook.gitlab.com/handbook/values").1 (by decide)⟩

/-- C6: for every network, seed list and budget N the run terminates (it
is a total function, by the lexicographic measure of remaining budget and
queue length), processes exactly as many pages as it appends corpus
entries, never more than N of them, and stops short of N only when the
frontier has emptied. -/
theorem c6_termination (world : World) (start_urls : List String) (N : Nat) :
    (run world start_urls N).page_count ≤ N ∧
    (run world start_urls N).corpus.length = (run world start_urls N).page_count ∧
    ((run world start_urls N).page_count < N →
      (run world start_urls N).to_visit = []) := by
  obtain ⟨h1, h2, h3⟩ := run_aux_count world N [] start_urls 0 (Nat.zero_le N)
  exact ⟨h1, by simpa [run, init_state] using h2.symm, h3⟩

theorem c6_termination_witness :
    (run world_fail [] 1).page_count < 1 ∧ (run world_fail [] 1).to_visit = [] := by
  have h : (run world_fail [] 1).page_count < 1 := by
    simp [run, init_state, run_aux]
  exact ⟨h, (c6_termination world_fail [] 1).2.2 h⟩

/-- C7 (counterexample): the claim says the fetch yields a FetchError iff
the status is not 2xx or an exception occurred.  False on the code:
`raise_for_status` raises only for status 400..599, so a 304 response —
not a 2xx — is passed on to parsing as if it had succeeded. -/
theorem c7_counterexample :
    fetch (fun _ => .response 304 ⟨none, [], [], [], []⟩) "https://u" =
      .ok ⟨none, [], [], [], []⟩ ∧ ¬ (200 ≤ 304 ∧ 304 < 300) := by
  constructor
  · rfl
  · decide

/-- C7 (amended): the fetch yields a FetchError if and only if the request
raised a network/timeout exception or the HTTP status is a 4xx/5xx code
(400..599); and no retry is attempted — the fetch result depends only on
the single network answer for that URL. -/
theorem c7_fetch_errors (world : World) (url : String) :
    ((∃ msg, fetch world url = .error msg) ↔
      (∃ msg, world url = .exception msg) ∨
        (∃ status body, world url = .response status body ∧
          400 ≤ status ∧ status < 600)) ∧
    (∀ w2 : World, w2 url = world url → fetch w2 url = fetch world url) := by
  constructor
  · cases h : world url with
    | exception msg => simp [fetch, h]
    | response status body =>
      by_cases hs : 400 ≤ status ∧ status < 600
      · simp [fetch, h, http_error, hs]
      · simp [fetch, h, http_error, hs]
  · intro w2 hw
    simp [fetch, hw]

theorem c7_fetch_errors_witness :
    world_fail "https://u" = .exception "boom" ∧
    ∃ msg, fetch world_fail "https://u" = .error msg :=
  ⟨rfl, (c7_fetch_errors world_fail "https://u").1.mpr (Or.inl ⟨"boom", rfl⟩)⟩

/-- C8: extraction is deterministic — two extractions given equal parsed
documents and equal source URLs produce byte-identical output text.  (In
the embedding `extract_text` is a pure function of exactly these two
inputs, mirroring that the Python code consults nothing else.) -/
theorem c8_deterministic (s1 s2 : Html) (u1 u2 : String) (h1 : s1 = s2)
    (h2 : u1 = u2) : extract_text s1 u1 = extract_text s2 u2 := by
  rw [h1, h2]

theorem c8_deterministic_witness :
    extract_text (Html.mk none [] [] [] []) "u" =
      extract_text (Html.mk none [] [] [] []) "u" :=
  c8_deterministic (Html.mk none [] [] [] []) (Html.mk none [] [] [] []) "u" "u" rfl rfl

/-- C9: seed URLs bypass the whitelist — the constructor enqueues exactly
the seed list with nothing visited; a popped seed is fetched and its
content appended to the corpus even when `is_allowed_url` rejects it; and
the filter only governs discovered links: every URL in the pending queue
at any point of the run is either one of the seeds or the normalization of
a URL that `is_allowed_url` accepted during link extraction. -/
theorem c9_seed_handling :
    (∀ seeds : List String,
      (init_state seeds).to_visit = seeds ∧ (init_state seeds).visited_urls = []) ∧
    (∀ (world : World) (u : String), is_allowed_url u = false →
      (run world [u] 1).fetched = [u] ∧
      (run world [u] 1).corpus = [(scrape_url world ⟨[], []⟩ u).1]) ∧
    (∀ (world : World) (seeds : List String) (N : Nat) (l : String),
      l ∈ (run world seeds N).to_visit →
      l ∈ seeds ∨ ∃ full, is_allowed_url full = true ∧
        l = (urlparse full).scheme ++ "://" ++ (urlparse full).netloc ++
          (urlparse full).path) := by
  refine ⟨fun seeds => ⟨rfl, rfl⟩, ?_, ?_⟩
  · intro world u _
    have h1 : run world [u] 1 = run_aux world 1 [] [u] 0 := rfl
    rw [h1, run_aux_step _ _ _ _ _ _ (by decide) (by simp),
      run_aux_done _ _ _ _ _ (by omega)]
    exact ⟨rfl, rfl⟩
  · intro world seeds N l hl
    exact run_aux_queue_inv world N
      (fun s => s ∈ seeds ∨ ∃ full, is_allowed_url full = true ∧
        s = (urlparse full).scheme ++ "://" ++ (urlparse full).netloc ++
          (urlparse full).path)
      (fun soup base s hs => Or.inr (extract_links_approved soup base s hs))
      [] seeds 0 (fun s hs => Or.inl hs) l hl

theorem c9_seed_handling_witness :
    is_allowed_url "https://example.com/x" = false ∧
    (run world_fail ["https://example.com/x"] 1).fetched = ["https://example.com/x"] := by
  have h : is_allowed_url "https://example.com/x" = false := by decide
  exact ⟨h, (c9_seed_handling.2.1 world_fail "https://example.com/x" h).1⟩

/-- C10: per-page failure is atomic with respect to the crawl state: when
the scrape of a URL fails (fetch raising, 4xx/5xx status, or the parse
raising), `scrape_url` returns with `visited_urls` and `to_visit` exactly
as they were — the URL is not marked visited and no links are enqueued —
and the only product is the error block string destined for the corpus. -/
theorem c10_failure_atomic (world : World) (st : CrawlState) (url : String)
    (h : scrape_fails world url = true) :
    (scrape_url world st url).2 = st ∧
    ∃ msg, (scrape_url world st url).1 = error_block url msg := by
  obtain ⟨msg, hs⟩ := scrape_url_of_fails world st url h
  rw [hs]
  exact ⟨rfl, msg, rfl⟩

theorem c10_failure_atomic_witness :
    scrape_fails world_fail "u" = true ∧
    (scrape_url world_fail ⟨["a"], ["b"]⟩ "u").2 = ⟨["a"], ["b"]⟩ :=
  ⟨by decide, (c10_failure_atomic world_fail ⟨["a"], ["b"]⟩ "u" (by decide)).1⟩

end GitLabScraper
